import Mathlib

-- Shallow embedding of the osmada repository (osmdata/parsers.py and osmdata/models.py).
-- XML documents are modelled as trees of element and text nodes, mirroring
-- xml.dom.minidom. Parser functions return Except PyError, where PyError mirrors the
-- Python exceptions the code can raise : FileFormatError, ValueError, KeyError on a
-- missing attribute, AttributeError on attribute access on None, NameError on an
-- undefined global, RecursionError at the interpreter recursion limit.
-- Django model construction is modelled as plain structure construction; model fields
-- never assigned by the parsers (version, uid, user, changeset, timestamp, visible)
-- are omitted, and the bounds field keeps its Django default of null unless assigned.

namespace Osmada

inductive XmlNode where
  | text (data : String)
  | element (tagName : String) (attributes : List (String × String)) (childNodes : List XmlNode)

def XmlNode.isText : XmlNode → Bool
  | .text _ => true
  | .element _ _ _ => false

def XmlNode.childNodes : XmlNode → List XmlNode
  | .text _ => []
  | .element _ _ cs => cs

def XmlNode.attrList : XmlNode → List (String × String)
  | .text _ => []
  | .element _ a _ => a

-- membership test on node.attributes (minidom NamedNodeMap)
def attrHas (n : XmlNode) (key : String) : Bool :=
  (n.attrList.find? (fun kv => kv.1 == key)).isSome

-- node.attributes[key].value as an optional lookup
def attrValue (n : XmlNode) (key : String) : Option String :=
  (n.attrList.find? (fun kv => kv.1 == key)).map (fun kv => kv.2)

inductive PyError where
  | fileFormatError (msg : String)
  | valueError (msg : String)
  | keyError (key : String)
  | attributeError (attr : String)
  | nameError (name : String)
  | recursionError
  deriving DecidableEq, Repr

-- node.attributes[key].value ; raises KeyError when the attribute is missing
def attrGet (n : XmlNode) (key : String) : Except PyError String :=
  match attrValue n key with
  | some v => .ok v
  | none => .error (.keyError key)

-- exception propagation : evaluate x, aborting the computation on a raised exception
def ebind {α β : Type} (x : Except PyError α) (f : α → Except PyError β) : Except PyError β :=
  match x with
  | .error e => .error e
  | .ok a => f a

-- minidom getElementsByTagName : all descendant elements with the given tag, in
-- document order ; for each child, the child itself (when it matches) precedes the
-- matches found inside it
mutual

def XmlNode.getElementsByTagName (name : String) : XmlNode → List XmlNode
  | .text _ => []
  | .element _ _ cs => getElementsInList name cs

def getElementsInList (name : String) : List XmlNode → List XmlNode
  | [] => []
  | c :: rest =>
    (match c with
     | XmlNode.element t _ _ => if t = name then [c] else []
     | XmlNode.text _ => []) ++ XmlNode.getElementsByTagName name c ++ getElementsInList name rest

end

-- getFirstNontextChild(element). The argument may be Python None (modelled as none) ;
-- iterating None.childNodes raises AttributeError.
def getFirstNontextChild : Option XmlNode → Except PyError (Option XmlNode)
  | none => .error (.attributeError "childNodes")
  | some el => .ok (el.childNodes.find? (fun c => !c.isText))

-- models.py data carried by the parsers

structure Bounds where
  minlat : String
  minlon : String
  maxlat : String
  maxlon : String
  deriving DecidableEq, Repr

structure Tag where
  k : String
  v : String
  deriving DecidableEq, Repr

structure NodeData where
  osmid : Option String
  lat : String
  lon : String
  tags : List Tag
  bounds : Option Bounds
  deriving DecidableEq, Repr

-- Element covers the three OSMElement subtypes. A relation member entry is the triple
-- (element, order, role) of the RelationMember row ; a way position entry is the pair
-- (node, order) of the WayNode row.
inductive Element where
  | node (d : NodeData)
  | way (osmid : Option String) (waynodes : List (NodeData × Nat)) (tags : List Tag)
      (bounds : Option Bounds)
  | relation (osmid : Option String) (members : List (Element × Nat × String))
      (tags : List Tag) (bounds : Option Bounds)

structure Action where
  type : String
  old : Option Element
  new : Option Element

structure Diff where
  actions : List Action

structure TagFilter where
  k : String
  v : Option String
  deriving DecidableEq, Repr

-- a Python for loop over a list, collecting results and propagating exceptions
def exceptMapM {α β : Type} (f : α → Except PyError β) : List α → Except PyError (List β)
  | [] => .ok []
  | x :: xs => ebind (f x) (fun y => ebind (exceptMapM f xs) (fun ys => .ok (y :: ys)))

-- a Python for loop over enumerate(list) starting at index i
def exceptMapIdxM {α β : Type} (f : Nat → α → Except PyError β) :
    Nat → List α → Except PyError (List β)
  | _, [] => .ok []
  | i, x :: xs =>
    ebind (f i x) (fun y => ebind (exceptMapIdxM f (i+1) xs) (fun ys => .ok (y :: ys)))

-- AbstractOSMElementParser.get_basic_attributes : id attribute first, then ref
def get_basic_attributes (n : XmlNode) : Option String :=
  match attrValue n "id" with
  | some v => some v
  | none => attrValue n "ref"

-- AbstractOSMElementParser.parse_tags ; getElementsByTagName is recursive over all
-- descendants, not only over direct children
def parse_tags (n : XmlNode) : Except PyError (List Tag) :=
  exceptMapM
    (fun t => ebind (attrGet t "k") (fun k => ebind (attrGet t "v") (fun v => .ok ⟨k, v⟩)))
    (n.getElementsByTagName "tag")

-- BoundsParser.parse : the dict comprehension reads the four attributes in order
-- (KeyError on a missing one), then the expression Bounds.objects.create evaluates the
-- name Bounds, which parsers.py never imports : NameError
def BoundsParser.parse (n : XmlNode) : Except PyError Bounds :=
  ebind (attrGet n "minlat") (fun _ =>
  ebind (attrGet n "minlon") (fun _ =>
  ebind (attrGet n "maxlat") (fun _ =>
  ebind (attrGet n "maxlon") (fun _ =>
  .error (.nameError "Bounds")))))

-- AbstractOSMElementParser.parse_bounds ; no parse method ever calls it
def parse_bounds (n : XmlNode) : Except PyError (Option Bounds) :=
  match (n.getElementsByTagName "bounds").head? with
  | none => .ok none
  | some b => ebind (BoundsParser.parse b) (fun bb => .ok (some bb))

-- NodeParser.parse : the lat and lon keyword arguments are evaluated before the
-- basic attributes ; tags are parsed after the Node row is created
def NodeParser.parse (n : XmlNode) : Except PyError NodeData :=
  ebind (attrGet n "lat") (fun lat =>
  ebind (attrGet n "lon") (fun lon =>
  ebind (parse_tags n) (fun tags =>
  .ok { osmid := get_basic_attributes n, lat := lat, lon := lon, tags := tags,
        bounds := none })))

-- WayParser.parse : enumerate over the nd descendants, one WayNode row per index
def WayParser.parse (n : XmlNode) : Except PyError Element :=
  ebind (exceptMapIdxM
          (fun i nd => ebind (NodeParser.parse nd) (fun d => .ok (d, i)))
          0 (n.getElementsByTagName "nd")) (fun wns =>
  ebind (parse_tags n) (fun tags =>
  .ok (.way (get_basic_attributes n) wns tags none)))

-- RelationMemberParser.parse, with the recursive call into RelationParser.parse
-- supplied as an argument because the two classes are mutually recursive through
-- members of type relation. Order of effects follows the source : attributes["type"],
-- kind dispatch with FileFormatError on an unknown kind, the member element parse,
-- then attributes["role"] at the RelationMember creation.
def memberParseWith (relParse : XmlNode → Except PyError Element)
    (m : XmlNode) (order : Nat) : Except PyError (Element × Nat × String) :=
  ebind (attrGet m "type") (fun t =>
  ebind (if t = "node" then ebind (NodeParser.parse m) (fun d => .ok (Element.node d))
         else if t = "way" then WayParser.parse m
         else if t = "relation" then relParse m
         else .error (.fileFormatError ("Unknown member type : \"" ++ t ++ "\"")))
    (fun el =>
  ebind (attrGet m "role") (fun role =>
  .ok (el, order, role))))

-- RelationParser.parse. The Python recursion is bounded only by the interpreter
-- recursion limit ; the fuel argument models that limit, exceeding it gives
-- RecursionError. For every finite document a large enough fuel is exact.
def RelationParser.parse : Nat → XmlNode → Except PyError Element
  | 0, _ => .error .recursionError
  | fuel+1, n =>
    ebind (exceptMapIdxM
            (fun i m => memberParseWith (fun x => RelationParser.parse fuel x) m i)
            0 (n.getElementsByTagName "member")) (fun mems =>
    ebind (parse_tags n) (fun tags =>
    .ok (.relation (get_basic_attributes n) mems tags none)))

def RelationMemberParser.parse (fuel : Nat) (m : XmlNode) (order : Nat) :
    Except PyError (Element × Nat × String) :=
  memberParseWith (fun x => RelationParser.parse fuel x) m order

-- AbstractXMLParser.transform : dispatch through PARSER_MAP on node.localName.
-- Its argument comes from getFirstNontextChild and may be Python None ;
-- None.localName raises AttributeError. The localName of a text node is None, which
-- the PARSER_MAP lookup turns into FileFormatError.
def transform (fuel : Nat) : Option XmlNode → Except PyError Element
  | none => .error (.attributeError "localName")
  | some (.text _) => .error (.fileFormatError "Unknown member type : \"None\"")
  | some (XmlNode.element tag a cs) =>
    if tag = "node" then
      ebind (NodeParser.parse (.element tag a cs)) (fun d => .ok (Element.node d))
    else if tag = "way" then WayParser.parse (.element tag a cs)
    else if tag = "relation" then RelationParser.parse fuel (.element tag a cs)
    else .error (.fileFormatError ("Unknown member type : \"" ++ tag ++ "\""))

-- one step of ActionParser._get_old_new : the wrapper lookup (None when the wrapper
-- is absent) followed by getFirstNontextChild on its result. Tuple unpacking runs
-- both generator steps, for the old and for the new wrapper.
def get_old_new_at (n : XmlNode) (wrapper : String) : Except PyError (Option XmlNode) :=
  getFirstNontextChild ((n.getElementsByTagName wrapper).head?)

-- ActionParser.parse
def ActionParser.parse (fuel : Nat) (n : XmlNode) : Except PyError Action :=
  ebind (attrGet n "type") (fun action_type =>
  if action_type = "create" then
    ebind (getFirstNontextChild (some n)) (fun c =>
    ebind (transform fuel c) (fun newEl =>
    .ok { type := action_type, old := none, new := some newEl }))
  else if action_type = "modify" then
    ebind (get_old_new_at n "old") (fun old_tag =>
    ebind (get_old_new_at n "new") (fun new_tag =>
    ebind (match old_tag with
           | some t => ebind (transform fuel (some t)) (fun e => .ok (some e))
           | none => .ok none) (fun old =>
    ebind (match new_tag with
           | some t => ebind (transform fuel (some t)) (fun e => .ok (some e))
           | none => .ok none) (fun new =>
    .ok { type := action_type, old := old, new := new }))))
  else if action_type = "delete" then
    ebind (get_old_new_at n "old") (fun old_tag =>
    ebind (get_old_new_at n "new") (fun _ =>
    ebind (transform fuel old_tag) (fun old =>
    .ok { type := action_type, old := some old, new := none })))
  else
    .ok { type := action_type, old := none, new := none })

-- AdiffParser.parse : root tag check, then one ActionParser per action descendant
def AdiffParser.parse (fuel : Nat) (root : XmlNode) : Except PyError Diff :=
  match root with
  | .text _ => .error (.attributeError "tagName")
  | .element tag a cs =>
    if tag = "osm" then
      ebind (exceptMapM (ActionParser.parse fuel)
              ((XmlNode.element tag a cs).getElementsByTagName "action"))
        (fun actions => .ok { actions := actions })
    else .error (.fileFormatError "That does not look like an adiff file…")

-- Greedy backtracking of re.match with RE_TAG_PATTERN = (?P<key>.+)=(?P<value>.+) :
-- a dot matches any char except a newline, both groups are greedy and the match is a
-- prefix match. The engine tries the longest key first, so the separator is the last
-- position of the first line holding '=' with a nonempty key before it and a nonempty
-- value after it inside the first line. findSepFrom scans the candidate separator
-- positions downward from the greatest admissible one, L.length - 2.
def findSepFrom (L : List Char) : Nat → Option Nat
  | 0 => none
  | j+1 => if L.get? (j+1) = some '=' then some (j+1) else findSepFrom L j

def reTagPatternMatch (s : String) : Option (String × String) :=
  let L := s.toList.takeWhile (fun c => c ≠ '\n')
  match findSepFrom L (L.length - 2) with
  | some j => some ((L.take j).asString, (L.drop (j+1)).asString)
  | none => none

-- Tag.parse_tag_pattern ; Python raises ValueError on a failed match
def Tag.parse_tag_pattern (tag_pattern : String) : Except PyError TagFilter :=
  match reTagPatternMatch tag_pattern with
  | some kv => .ok { k := kv.1, v := if kv.2 ≠ "*" then some kv.2 else none }
  | none => .error (.valueError ("Invalid tag pattern : \"" ++ tag_pattern ++ "\""))

-- direct element children of a node carrying the given tag, in document order ;
-- used to state validity hypotheses relating descendant search to child iteration
def XmlNode.matchesTag (name : String) : XmlNode → Bool
  | .text _ => false
  | .element t _ _ => t == name

def elementChildren (name : String) (n : XmlNode) : List XmlNode :=
  n.childNodes.filter (fun c => c.matchesTag name)

def Element.tags : Element → List Tag
  | .node d => d.tags
  | .way _ _ ts _ => ts
  | .relation _ _ ts _ => ts

def Element.wayNodes? : Element → Option (List (NodeData × Nat))
  | .way _ wns _ _ => some wns
  | _ => none

-- concrete documents used by the witnesses and counterexamples

def xNode1 : XmlNode := .element "node" [("id","1"),("lat","10"),("lon","20")] []
def xNodeNoLat : XmlNode := .element "node" [("id","1")] []
def xNodeNoLon : XmlNode := .element "node" [("id","1"),("lat","10")] []
def xOldWrap : XmlNode :=
  .element "old" [] [.text "  ", .element "node" [("id","2"),("lat","3"),("lon","4")] []]
def xNewWrap : XmlNode :=
  .element "new" [] [.element "node" [("id","2"),("lat","3"),("lon","5")] []]
def xDeleteNoOld : XmlNode := .element "action" [("type","delete")] []
def xDeleteFull : XmlNode := .element "action" [("type","delete")] [xOldWrap, xNewWrap]
def xModifyNeither : XmlNode := .element "action" [("type","modify")] []
def xModifyFull : XmlNode := .element "action" [("type","modify")] [xOldWrap, xNewWrap]
def xCreate : XmlNode :=
  .element "action" [("type","create")]
    [.element "node" [("id","7"),("lat","1"),("lon","2")] []]
def xRemove : XmlNode := .element "action" [("type","remove")] []
def xDoc : XmlNode := .element "osm" [("version","0.6")] [xCreate, xRemove]
def xNdTagged : XmlNode :=
  .element "nd" [("ref","1"),("lat","0"),("lon","0")]
    [.element "tag" [("k","a"),("v","b")] []]
def xWayNested : XmlNode := .element "way" [("id","3")] [xNdTagged]
def xBoundsChild : XmlNode :=
  .element "bounds" [("minlat","1"),("minlon","2"),("maxlat","3"),("maxlon","4")] []
def xNodeBounded : XmlNode :=
  .element "node" [("id","1"),("lat","10"),("lon","20")] [xBoundsChild]
def xMemberNoRole : XmlNode :=
  .element "member" [("type","node"),("ref","5"),("lat","1"),("lon","2")] []
def xMemberRole : XmlNode :=
  .element "member" [("type","node"),("ref","5"),("lat","1"),("lon","2"),("role","stop")] []
def xWayTwo : XmlNode :=
  .element "way" [("id","9")]
    [.element "nd" [("ref","1"),("lat","0"),("lon","0")] [],
     .element "nd" [("ref","2"),("lat","1"),("lon","1")] []]

-- generic facts about the embedding combinators

theorem ebind_eq_ok {α β : Type} {x : Except PyError α} {f : α → Except PyError β}
    {b : β} (h : ebind x f = .ok b) : ∃ a, x = .ok a ∧ f a = .ok b := by
  cases x with
  | error e => simp [ebind] at h
  | ok a => exact ⟨a, rfl, h⟩

theorem exceptMapM_ok {α β : Type} (f : α → Except PyError β) :
    ∀ (l : List α) (l2 : List β), exceptMapM f l = .ok l2 →
      l2.length = l.length ∧
      ∀ i (hi : i < l.length) (hi2 : i < l2.length),
        f (l.get ⟨i, hi⟩) = .ok (l2.get ⟨i, hi2⟩) := by
  intro l
  induction l with
  | nil =>
    intro l2 h
    unfold exceptMapM at h
    injection h with h
    subst h
    exact ⟨rfl, fun i hi => absurd hi (Nat.not_lt_zero i)⟩
  | cons x xs ih =>
    intro l2 h
    unfold exceptMapM at h
    obtain ⟨y, hy, h⟩ := ebind_eq_ok h
    obtain ⟨ys, hys, h⟩ := ebind_eq_ok h
    injection h with h
    subst h
    obtain ⟨hlen, hpt⟩ := ih ys hys
    refine ⟨by simp [hlen], ?_⟩
    intro i hi hi2
    cases i with
    | zero => simpa using hy
    | succ j =>
      have hj : j < xs.length := by simpa using hi
      have hj2 : j < ys.length := by simpa using hi2
      simpa using hpt j hj hj2

theorem exceptMapIdxM_ok {α β : Type} (f : Nat → α → Except PyError β) :
    ∀ (l : List α) (i0 : Nat) (l2 : List β), exceptMapIdxM f i0 l = .ok l2 →
      l2.length = l.length ∧
      ∀ i (hi : i < l.length) (hi2 : i < l2.length),
        f (i0 + i) (l.get ⟨i, hi⟩) = .ok (l2.get ⟨i, hi2⟩) := by
  intro l
  induction l with
  | nil =>
    intro i0 l2 h
    unfold exceptMapIdxM at h
    injection h with h
    subst h
    exact ⟨rfl, fun i hi => absurd hi (Nat.not_lt_zero i)⟩
  | cons x xs ih =>
    intro i0 l2 h
    unfold exceptMapIdxM at h
    obtain ⟨y, hy, h⟩ := ebind_eq_ok h
    obtain ⟨ys, hys, h⟩ := ebind_eq_ok h
    injection h with h
    subst h
    obtain ⟨hlen, hpt⟩ := ih (i0+1) ys hys
    refine ⟨by simp [hlen], ?_⟩
    intro i hi hi2
    cases i with
    | zero => simpa using hy
    | succ j =>
      have hj : j < xs.length := by simpa using hi
      have hj2 : j < ys.length := by simpa using hi2
      have hstep := hpt j hj hj2
      have harith : i0 + 1 + j = i0 + (j + 1) := by omega
      rw [harith] at hstep
      simpa using hstep

/-- C1 : for a valid input document, one whose change entries are exactly the action
children of the root, a successful AdiffParser.parse returns a Diff holding as many
Changes as there are entries, the i-th Change being the ActionParser parse of the
i-th entry in document order. -/
theorem C1_diff_changes_in_order (fuel : Nat) (root : XmlNode) (d : Diff)
    (hvalid : root.getElementsByTagName "action" = elementChildren "action" root)
    (hok : AdiffParser.parse fuel root = .ok d) :
    d.actions.length = (elementChildren "action" root).length ∧
    ∀ i (hi : i < (elementChildren "action" root).length)
      (hi2 : i < d.actions.length),
      ActionParser.parse fuel ((elementChildren "action" root).get ⟨i, hi⟩)
        = .ok (d.actions.get ⟨i, hi2⟩) := by
  cases root with
  | text s => simp [AdiffParser.parse] at hok
  | element tag a cs =>
    simp only [AdiffParser.parse] at hok
    by_cases htag : tag = "osm"
    · rw [if_pos htag] at hok
      obtain ⟨acts, hmap, hok⟩ := ebind_eq_ok hok
      injection hok with hok
      subst hok
      rw [hvalid] at hmap
      obtain ⟨hlen, hpt⟩ := exceptMapM_ok _ _ _ hmap
      exact ⟨hlen, fun i hi hi2 => hpt i hi hi2⟩
    · rw [if_neg htag] at hok
      exact absurd hok (by simp)

/-- Witness for C1 at a concrete two entry document. -/
theorem C1_witness :
    (({ actions := [⟨"create", none, some (.node ⟨some "7", "1", "2", [], none⟩)⟩,
                    ⟨"remove", none, none⟩] } : Diff)).actions.length
      = (elementChildren "action" xDoc).length ∧
    ∀ i (hi : i < (elementChildren "action" xDoc).length)
      (hi2 : i < (({ actions := [⟨"create", none,
                      some (.node ⟨some "7", "1", "2", [], none⟩)⟩,
                    ⟨"remove", none, none⟩] } : Diff)).actions.length),
      ActionParser.parse 1 ((elementChildren "action" xDoc).get ⟨i, hi⟩)
        = .ok ((({ actions := [⟨"create", none,
                      some (.node ⟨some "7", "1", "2", [], none⟩)⟩,
                    ⟨"remove", none, none⟩] } : Diff)).actions.get ⟨i, hi2⟩) :=
  C1_diff_changes_in_order 1 xDoc _ rfl rfl

/-- C5 : for a way node whose position references are exactly its nd children, a
successful WayParser.parse yields a position sequence pairing the parse of the i-th
reference with index i, the index assigned purely by position starting at 0 and never
read from the input. -/
theorem C5_way_positions (n : XmlNode) (el : Element)
    (hnds : n.getElementsByTagName "nd" = elementChildren "nd" n)
    (hok : WayParser.parse n = .ok el) :
    ∃ wns, el.wayNodes? = some wns ∧
      wns.length = (elementChildren "nd" n).length ∧
      ∀ i (hi : i < (elementChildren "nd" n).length) (hi2 : i < wns.length),
        (wns.get ⟨i, hi2⟩).2 = i ∧
        NodeParser.parse ((elementChildren "nd" n).get ⟨i, hi⟩)
          = .ok (wns.get ⟨i, hi2⟩).1 := by
  unfold WayParser.parse at hok
  obtain ⟨wns, hmap, hok⟩ := ebind_eq_ok hok
  obtain ⟨tags, htags, hok⟩ := ebind_eq_ok hok
  injection hok with hok
  subst hok
  rw [hnds] at hmap
  obtain ⟨hlen, hpt⟩ := exceptMapIdxM_ok _ _ _ _ hmap
  refine ⟨wns, rfl, hlen, ?_⟩
  intro i hi hi2
  have hstep := hpt i hi hi2
  obtain ⟨dd, hdd, hstep⟩ := ebind_eq_ok hstep
  injection hstep with hstep
  constructor
  · rw [← hstep]
    simp
  · rw [← hstep]
    simpa using hdd

/-- Witness for C5 at a concrete way with two nd children. -/
theorem C5_witness :
    ∃ wns, (Element.way (some "9")
        [(⟨some "1", "0", "0", [], none⟩, 0), (⟨some "2", "1", "1", [], none⟩, 1)]
        [] none).wayNodes? = some wns ∧
      wns.length = (elementChildren "nd" xWayTwo).length ∧
      ∀ i (hi : i < (elementChildren "nd" xWayTwo).length) (hi2 : i < wns.length),
        (wns.get ⟨i, hi2⟩).2 = i ∧
        NodeParser.parse ((elementChildren "nd" xWayTwo).get ⟨i, hi⟩)
          = .ok (wns.get ⟨i, hi2⟩).1 :=
  C5_way_positions xWayTwo _ rfl rfl

/-- C8 counterexample : a way with no direct tag child whose nd child holds a tag ;
the parsed way nevertheless carries that nested tag, because parse_tags scans all tag
descendants, not only the direct children of the element being parsed. -/
theorem C8_counterexample :
    elementChildren "tag" xWayNested = [] ∧
    WayParser.parse xWayNested =
      .ok (.way (some "3") [(⟨some "1", "0", "0", [⟨"a", "b"⟩], none⟩, 0)]
        [⟨"a", "b"⟩] none) :=
  ⟨rfl, rfl⟩

/-- C8 amended : the tag sequence of a parsed element holds one Tag per tag descendant
of the node of the element, tags of nested elements included, in document order with
duplicates kept : every element parser attaches exactly the parse_tags result, and
parse_tags pairs the k and v attributes of the i-th tag descendant with the i-th Tag. -/
theorem C8_tags_from_descendants :
    (∀ (n : XmlNode) (dd : NodeData), NodeParser.parse n = .ok dd →
        parse_tags n = .ok dd.tags) ∧
    (∀ (n : XmlNode) (el : Element), WayParser.parse n = .ok el →
        parse_tags n = .ok el.tags) ∧
    (∀ (fuel : Nat) (n : XmlNode) (el : Element), RelationParser.parse fuel n = .ok el →
        parse_tags n = .ok el.tags) ∧
    (∀ (n : XmlNode) (ts : List Tag), parse_tags n = .ok ts →
        ts.length = (n.getElementsByTagName "tag").length ∧
        ∀ i (hi : i < (n.getElementsByTagName "tag").length) (hi2 : i < ts.length),
          attrGet ((n.getElementsByTagName "tag").get ⟨i, hi⟩) "k"
            = .ok (ts.get ⟨i, hi2⟩).k ∧
          attrGet ((n.getElementsByTagName "tag").get ⟨i, hi⟩) "v"
            = .ok (ts.get ⟨i, hi2⟩).v) := by
  refine ⟨?_, ?_, ?_, ?_⟩
  · intro n dd hok
    unfold NodeParser.parse at hok
    obtain ⟨lat, hlat, hok⟩ := ebind_eq_ok hok
    obtain ⟨lon, hlon, hok⟩ := ebind_eq_ok hok
    obtain ⟨ts, hts, hok⟩ := ebind_eq_ok hok
    injection hok with hok
    subst hok
    exact hts
  · intro n el hok
    unfold WayParser.parse at hok
    obtain ⟨wns, hmap, hok⟩ := ebind_eq_ok hok
    obtain ⟨ts, hts, hok⟩ := ebind_eq_ok hok
    injection hok with hok
    subst hok
    exact hts
  · intro fuel n el hok
    cases fuel with
    | zero => simp [RelationParser.parse] at hok
    | succ f =>
      unfold RelationParser.parse at hok
      obtain ⟨mems, hmap, hok⟩ := ebind_eq_ok hok
      obtain ⟨ts, hts, hok⟩ := ebind_eq_ok hok
      injection hok with hok
      subst hok
      exact hts
  · intro n ts hts
    unfold parse_tags at hts
    obtain ⟨hlen, hpt⟩ := exceptMapM_ok _ _ _ hts
    refine ⟨hlen, ?_⟩
    intro i hi hi2
    have hstep := hpt i hi hi2
    obtain ⟨k, hk, hstep⟩ := ebind_eq_ok hstep
    obtain ⟨v, hv, hstep⟩ := ebind_eq_ok hstep
    injection hstep with hstep
    constructor
    · rw [← hstep]
      exact hk
    · rw [← hstep]
      exact hv

/-- Witness for C8 : the amended pointwise description evaluated on the nested way. -/
theorem C8_witness :
    ([(⟨"a", "b"⟩ : Tag)]).length = (xWayNested.getElementsByTagName "tag").length ∧
    ∀ i (hi : i < (xWayNested.getElementsByTagName "tag").length)
      (hi2 : i < ([(⟨"a", "b"⟩ : Tag)]).length),
      attrGet ((xWayNested.getElementsByTagName "tag").get ⟨i, hi⟩) "k"
        = .ok (([(⟨"a", "b"⟩ : Tag)]).get ⟨i, hi2⟩).k ∧
      attrGet ((xWayNested.getElementsByTagName "tag").get ⟨i, hi⟩) "v"
        = .ok (([(⟨"a", "b"⟩ : Tag)]).get ⟨i, hi2⟩).v :=
  C8_tags_from_descendants.2.2.2 xWayNested [⟨"a", "b"⟩] rfl

/-- C2 : code bug. On a delete change without an old wrapper, _get_old_new binds the
wrapper to None and getFirstNontextChild(None) raises AttributeError on
None.childNodes, instead of the FormatError naming the missing wrapper that the claim
requires. When the old wrapper is present (together with the new wrapper, which the
generator also dereferences) the delete parse does return the Change with kind
delete, old set to the parse of the first non text child of the wrapper, new absent. -/
theorem C2_delete_missing_old_bug :
    ActionParser.parse 1 xDeleteNoOld = .error (.attributeError "childNodes") ∧
    ActionParser.parse 1 xDeleteFull =
      .ok ⟨"delete", some (.node ⟨some "2", "3", "4", [], none⟩), none⟩ :=
  ⟨rfl, rfl⟩

/-- C3 : code bug. On a modify change without old and new wrappers the parse does not
return a Change with both sides absent : _get_old_new binds the old wrapper to None
and getFirstNontextChild(None) raises AttributeError, although the inline comment and
the if old_tag guards show missing wrappers were meant to flow through as None. With
both wrappers present the modify parse returns both sides as the claim describes. -/
theorem C3_modify_neither_wrapper_bug :
    ActionParser.parse 1 xModifyNeither = .error (.attributeError "childNodes") ∧
    ActionParser.parse 1 xModifyFull =
      .ok ⟨"modify", some (.node ⟨some "2", "3", "4", [], none⟩),
           some (.node ⟨some "2", "3", "5", [], none⟩)⟩ :=
  ⟨rfl, rfl⟩

/-- C6 : code bug. No element parse ever invokes the Bounds Parser : a node carrying a
well formed bounds child still comes back with bounds none, and a direct call to
parse_bounds cannot attach anything because BoundsParser.parse evaluates the name
Bounds, which parsers.py never imports, raising NameError. -/
theorem C6_bounds_never_attached :
    NodeParser.parse xNodeBounded = .ok ⟨some "1", "10", "20", [], none⟩ ∧
    parse_bounds xNodeBounded = .error (.nameError "Bounds") :=
  ⟨rfl, rfl⟩

/-- C7 counterexample : a node without a lat attribute is not passed through with the
coordinate missing ; NodeParser.parse raises KeyError on lat. -/
theorem C7_counterexample :
    NodeParser.parse xNodeNoLat = .error (.keyError "lat") := rfl

/-- C7 amended : NodeParser.parse requires the lat and lon attributes ; a missing one
raises KeyError, lat being checked first. When both are present the parse returns the
Point combining them with the basic attributes and the parsed tags. -/
theorem C7_node_requires_coords :
    (∀ n : XmlNode, attrValue n "lat" = none →
        NodeParser.parse n = .error (.keyError "lat")) ∧
    (∀ (n : XmlNode) (lat : String), attrValue n "lat" = some lat →
        attrValue n "lon" = none → NodeParser.parse n = .error (.keyError "lon")) ∧
    (∀ (n : XmlNode) (lat lon : String) (ts : List Tag),
        attrValue n "lat" = some lat → attrValue n "lon" = some lon →
        parse_tags n = .ok ts →
        NodeParser.parse n = .ok ⟨get_basic_attributes n, lat, lon, ts, none⟩) := by
  refine ⟨?_, ?_, ?_⟩
  · intro n hlat
    unfold NodeParser.parse attrGet
    rw [hlat]
    rfl
  · intro n lat hlat hlon
    unfold NodeParser.parse attrGet
    rw [hlat, hlon]
    rfl
  · intro n lat lon ts hlat hlon hts
    unfold NodeParser.parse attrGet
    rw [hlat, hlon]
    simp only [ebind]
    rw [hts]

/-- Witness for C7 at a concrete node carrying both coordinates. -/
theorem C7_witness :
    NodeParser.parse xNode1 = .ok ⟨get_basic_attributes xNode1, "10", "20", [], none⟩ :=
  C7_node_requires_coords.2.2 xNode1 "10" "20" [] rfl rfl rfl

/-- C9 counterexample : a member node without a role attribute does not default the
role to the empty string ; RelationMemberParser.parse raises KeyError on role. -/
theorem C9_counterexample :
    RelationMemberParser.parse 0 xMemberNoRole 0 = .error (.keyError "role") := rfl

/-- C9 amended : a missing role attribute makes the member parse fail with KeyError
rather than defaulting to the empty string ; on success the role equals the value of
the role attribute and the order is the caller supplied index. -/
theorem C9_member_role_required (fuel : Nat) (m : XmlNode) (i : Nat)
    (mem : Element × Nat × String)
    (hok : RelationMemberParser.parse fuel m i = .ok mem) :
    attrGet m "role" = .ok mem.2.2 ∧ mem.2.1 = i := by
  unfold RelationMemberParser.parse memberParseWith at hok
  obtain ⟨t, ht, hok⟩ := ebind_eq_ok hok
  obtain ⟨el, hel, hok⟩ := ebind_eq_ok hok
  obtain ⟨role, hrole, hok⟩ := ebind_eq_ok hok
  injection hok with hok
  subst hok
  exact ⟨hrole, rfl⟩

/-- Witness for C9 at a concrete member carrying a role attribute. -/
theorem C9_witness :
    attrGet xMemberRole "role"
      = .ok ((Element.node ⟨some "5", "1", "2", [], none⟩, 3, "stop") :
          Element × Nat × String).2.2 ∧
    ((Element.node ⟨some "5", "1", "2", [], none⟩, 3, "stop") :
        Element × Nat × String).2.1 = 3 :=
  C9_member_role_required 0 xMemberRole 3 _ rfl

/-- C10 : a change node whose declared type attribute is none of create, modify or
delete, the string remove included, parses without error into an Action recording
that type verbatim, with old and new both absent. -/
theorem C10_unknown_kind_passthrough (fuel : Nat) (n : XmlNode) (t : String)
    (ht : attrGet n "type" = .ok t)
    (h1 : t ≠ "create") (h2 : t ≠ "modify") (h3 : t ≠ "delete") :
    ActionParser.parse fuel n = .ok ⟨t, none, none⟩ := by
  unfold ActionParser.parse
  rw [ht]
  simp [ebind, h1, h2, h3]

/-- Witness for C10 at a concrete remove change node. -/
theorem C10_witness :
    attrGet xRemove "type" = .ok "remove" ∧
    ActionParser.parse 0 xRemove = .ok ⟨"remove", none, none⟩ :=
  ⟨rfl, C10_unknown_kind_passthrough 0 xRemove "remove" rfl
    (by decide) (by decide) (by decide)⟩

-- facts about the greedy separator search of the tag pattern regex

theorem takeWhile_all {α : Type} (p : α → Bool) :
    ∀ l : List α, (∀ a ∈ l, p a = true) → l.takeWhile p = l := by
  intro l
  induction l with
  | nil => intro _; rfl
  | cons x xs ih =>
    intro h
    rw [List.takeWhile_cons, if_pos (h x (List.mem_cons_self x xs))]
    rw [ih (fun a ha => h a (List.mem_cons_of_mem x ha))]

theorem findSepFrom_skip (L : List Char) :
    ∀ s t : Nat, t ≤ s → (∀ i, t < i → i ≤ s → L.get? i ≠ some '=') →
      findSepFrom L s = findSepFrom L t := by
  intro s
  induction s with
  | zero =>
    intro t ht _
    have h0 : t = 0 := Nat.le_zero.mp ht
    rw [h0]
  | succ r ih =>
    intro t ht hno
    rcases Nat.eq_or_lt_of_le ht with heq | hlt
    · rw [heq]
    · have hne : L.get? (r+1) ≠ some '=' := hno (r+1) (by omega) (by omega)
      simp only [findSepFrom]
      rw [if_neg hne]
      exact ih t (by omega) (fun i h1 h2 => hno i h1 (by omega))

theorem findSepFrom_none (L : List Char) :
    ∀ s : Nat, (∀ i : Nat, 1 ≤ i → i ≤ s → L.get? i ≠ some '=') →
      findSepFrom L s = none := by
  intro s
  induction s with
  | zero => intro _; rfl
  | succ r ih =>
    intro hno
    simp only [findSepFrom]
    rw [if_neg (hno (r+1) (by omega) (Nat.le_refl _))]
    exact ih (fun i h1 h2 => hno i h1 (by omega))

theorem takeWhile_append_stop {α : Type} (p : α → Bool) (x : α) (hx : p x = false) :
    ∀ l1 l2 : List α, (l1 ++ x :: l2).takeWhile p = l1.takeWhile p := by
  intro l1
  induction l1 with
  | nil => intro l2; simp [List.takeWhile_cons, hx]
  | cons a l1 ih =>
    intro l2
    rw [List.cons_append, List.takeWhile_cons, List.takeWhile_cons]
    cases hpa : p a with
    | false => simp
    | true => simp [ih]

theorem findSepFrom_split (kl vl : List Char) (hk : kl ≠ []) (hv : vl ≠ [])
    (hvne : ∀ m : Nat, m < vl.length - 1 → vl.get? m ≠ some '=') :
    findSepFrom (kl ++ '=' :: vl) ((kl ++ '=' :: vl).length - 2) = some kl.length := by
  have hklen : 0 < kl.length := List.length_pos.mpr hk
  have hvlen : 0 < vl.length := List.length_pos.mpr hv
  have hlen : (kl ++ '=' :: vl).length = kl.length + vl.length + 1 := by
    simp [List.length_append]
    omega
  have hgetsep : (kl ++ '=' :: vl).get? kl.length = some '=' := by
    rw [List.get?_eq_getElem?]
    rw [List.getElem?_append_right (Nat.le_refl _)]
    simp
  have hbase : findSepFrom (kl ++ '=' :: vl) kl.length = some kl.length := by
    obtain ⟨j, hj⟩ : ∃ j, kl.length = j + 1 := ⟨kl.length - 1, by omega⟩
    have hg2 : (kl ++ '=' :: vl).get? (j+1) = some '=' := by
      rw [← hj]
      exact hgetsep
    rw [hj]
    simp only [findSepFrom]
    rw [if_pos hg2]
  have hskip : findSepFrom (kl ++ '=' :: vl) ((kl ++ '=' :: vl).length - 2)
      = findSepFrom (kl ++ '=' :: vl) kl.length := by
    apply findSepFrom_skip
    · omega
    · intro i h1 h2 heq
      rw [List.get?_eq_getElem?] at heq
      rw [List.getElem?_append_right (by omega)] at heq
      obtain ⟨m, hm⟩ : ∃ m, i - kl.length = m + 1 := ⟨i - kl.length - 1, by omega⟩
      rw [hm, List.getElem?_cons_succ] at heq
      have hmb : m < vl.length - 1 := by omega
      apply hvne m hmb
      rw [List.get?_eq_getElem?]
      exact heq
  rw [hskip, hbase]

/-- C4 counterexample : the input a=b=c holds two separators, yet parse_tag_pattern
succeeds, greedily splitting at the last admissible separator, where the claim
requires a FormatError for any string not made of exactly one separator between a
nonempty key and a nonempty value. -/
theorem C4_counterexample :
    Tag.parse_tag_pattern "a=b=c" = .ok ⟨"a=b", some "c"⟩ := rfl

/-- C4 amended : parse_tag_pattern implements a greedy prefix match of the pattern
dot-plus equals dot-plus over the part of the input before the first newline. First
part : it succeeds on key equals value for every nonempty newline free key and
nonempty newline free value whose separators, if any, sit only at the final position
of the value token, the key itself being allowed to hold further separators (this is
the canonical decomposition at the last admissible separator, so inputs such as
a=b=c and a=b= succeed) ; the value constraint is omitted exactly when the value
token is the star. Second part : everything from the first newline on is ignored, a
parse of s followed by a newline and any tail succeeds with a given filter exactly
when the parse of s does. Third part : it fails with the single error kind exactly
when the first line holds no separator at an interior position, which covers inputs
with no separator, with an empty key such as =a, and with an empty value such as a=. -/
theorem C4_tag_pattern_amended :
    (∀ k v : String, k ≠ "" → v ≠ "" →
      (∀ c ∈ k.toList, c ≠ '\n') → (∀ c ∈ v.toList, c ≠ '\n') →
      (∀ m : Nat, m < v.toList.length - 1 → v.toList.get? m ≠ some '=') →
      Tag.parse_tag_pattern (k ++ "=" ++ v)
        = .ok ⟨k, if v ≠ "*" then some v else none⟩) ∧
    (∀ s t : String, ∀ f : TagFilter,
      Tag.parse_tag_pattern (s ++ "\n" ++ t) = .ok f ↔
        Tag.parse_tag_pattern s = .ok f) ∧
    (∀ s : String,
      (∀ j : Nat, j < (s.toList.takeWhile (fun c => c ≠ '\n')).length - 1 → 1 ≤ j →
        (s.toList.takeWhile (fun c => c ≠ '\n')).get? j ≠ some '=') →
      Tag.parse_tag_pattern s
        = .error (.valueError ("Invalid tag pattern : \"" ++ s ++ "\""))) := by
  refine ⟨?_, ?_, ?_⟩
  · intro k v hk hv hkn hvn hvm
    have hklist : k.toList ≠ [] := by
      intro h
      apply hk
      apply String.ext
      simpa using h
    have hvlist : v.toList ≠ [] := by
      intro h
      apply hv
      apply String.ext
      simpa using h
    have hdata : (k ++ "=" ++ v).toList = k.toList ++ '=' :: v.toList := by
      show (k ++ "=" ++ v).data = k.data ++ '=' :: v.data
      rw [String.data_append, String.data_append]
      simp [List.append_assoc]
    have htake : ((k.toList ++ '=' :: v.toList).takeWhile (fun c => c ≠ '\n'))
        = k.toList ++ '=' :: v.toList := by
      apply takeWhile_all
      intro a ha
      simp only [decide_eq_true_eq]
      rcases List.mem_append.mp ha with h | h
      · exact hkn a h
      · rcases List.mem_cons.mp h with h | h
        · rw [h]
          decide
        · exact hvn a h
    have hassoc : k.toList ++ '=' :: v.toList = (k.toList ++ ['=']) ++ v.toList := by
      simp
    have htakeK : (k.toList ++ '=' :: v.toList).take k.toList.length = k.toList :=
      List.take_left k.toList ('=' :: v.toList)
    have hdropV : (k.toList ++ '=' :: v.toList).drop (k.toList.length + 1) = v.toList := by
      rw [hassoc]
      have hl : k.toList.length + 1 = (k.toList ++ ['=']).length := by simp
      rw [hl]
      exact List.drop_left (k.toList ++ ['=']) v.toList
    simp only [Tag.parse_tag_pattern, reTagPatternMatch]
    rw [hdata, htake, findSepFrom_split k.toList v.toList hklist hvlist hvm]
    simp only [htakeK, hdropV]
    rfl
  · intro s t f
    have hdata2 : (s ++ "\n" ++ t).toList = s.toList ++ '\n' :: t.toList := by
      show (s ++ "\n" ++ t).data = s.data ++ '\n' :: t.data
      rw [String.data_append, String.data_append]
      simp [List.append_assoc]
    have hL : (s ++ "\n" ++ t).toList.takeWhile (fun c => c ≠ '\n')
        = s.toList.takeWhile (fun c => c ≠ '\n') := by
      rw [hdata2]
      exact takeWhile_append_stop _ '\n' (by decide) s.toList t.toList
    simp only [Tag.parse_tag_pattern, reTagPatternMatch, hL]
    cases hF : findSepFrom (s.toList.takeWhile (fun c => c ≠ '\n'))
        ((s.toList.takeWhile (fun c => c ≠ '\n')).length - 2) <;> simp [hF]
  · intro s hs
    have hno : ∀ i : Nat, 1 ≤ i →
        i ≤ (s.toList.takeWhile (fun c => c ≠ '\n')).length - 2 →
        (s.toList.takeWhile (fun c => c ≠ '\n')).get? i ≠ some '=' := by
      intro i h1 h2
      exact hs i (by omega) h1
    simp only [Tag.parse_tag_pattern, reTagPatternMatch]
    rw [findSepFrom_none _ _ hno]

/-- Witness for C4 applying the amended statement at concrete patterns : the plain
success, a value token ending in a separator, content after a newline, no separator,
an empty value and an empty key. -/
theorem C4_witness :
    Tag.parse_tag_pattern ("highway" ++ "=" ++ "primary")
      = .ok ⟨"highway", if "primary" ≠ "*" then some "primary" else none⟩ ∧
    Tag.parse_tag_pattern ("a" ++ "=" ++ "b=")
      = .ok ⟨"a", if "b=" ≠ "*" then some "b=" else none⟩ ∧
    Tag.parse_tag_pattern ("a=b" ++ "\n" ++ "junk") = .ok ⟨"a", some "b"⟩ ∧
    Tag.parse_tag_pattern "invalid"
      = .error (.valueError ("Invalid tag pattern : \"" ++ "invalid" ++ "\"")) ∧
    Tag.parse_tag_pattern "a="
      = .error (.valueError ("Invalid tag pattern : \"" ++ "a=" ++ "\"")) ∧
    Tag.parse_tag_pattern "=a"
      = .error (.valueError ("Invalid tag pattern : \"" ++ "=a" ++ "\"")) :=
  ⟨C4_tag_pattern_amended.1 "highway" "primary" (by decide) (by decide)
    (by decide) (by decide) (by decide),
   C4_tag_pattern_amended.1 "a" "b=" (by decide) (by decide)
    (by decide) (by decide) (by decide),
   (C4_tag_pattern_amended.2.1 "a=b" "junk" ⟨"a", some "b"⟩).mpr rfl,
   C4_tag_pattern_amended.2.2 "invalid" (by decide),
   C4_tag_pattern_amended.2.2 "a=" (by decide),
   C4_tag_pattern_amended.2.2 "=a" (by decide)⟩

end Osmada
